import Mathlib

/-!
Verification development for the mongo-utility-scripts repository.

The repository holds three Bun/JavaScript scripts:
- a config generator (src/scripts/findDuplicates/utils/index.js, generateConfigs)
  that turns an index-build failure report into a scan plan;
- two driver scripts (src/unnamed/part_000 and part_001) that load the plan and
  run a per-field grouping aggregation against MongoDB to find duplicate values,
  part_001 additionally enriching rels collections with cardinality metadata;
- an index-count audit script (second half of part_001), out of scope here.

The embedding below translates the relevant functions into Lean: JavaScript
strings become Lean String, object fields that may be absent become Option,
thrown exceptions become Except, the MongoDB driver becomes an explicit DB
record of oracles, and the concrete aggregation pipeline built by the scripts
is given its MongoDB semantics over an explicit list of documents.
-/

namespace MongoDup

/-- Character-list matching: true when the second list is a leading segment of the first. -/
def startsWithSeq : List Char → List Char → Bool
  | _, [] => true
  | [], _ :: _ => false
  | c :: cs, p :: ps => c == p && startsWithSeq cs ps

/-- Containment test on character lists, modelling the JS String.includes call. -/
def containsSeq : List Char → List Char → Bool
  | [], pat => startsWithSeq [] pat
  | c :: cs, pat => startsWithSeq (c :: cs) pat || containsSeq cs pat

/-- Models the JS expression collectionName.includes(pat) from part_001 line 100. -/
def jsIncludes (s pat : String) : Bool := containsSeq s.data pat.data

/-- True when the character list ends with the given two-character tail; models the anchored regex test of utils/index.js line 48. -/
def endsWithSeq (l pat : List Char) : Bool := startsWithSeq l.reverse pat.reverse

/-- Models indexName.replace(/_1$/, "") from utils/index.js line 48: the trailing suffix _1 is removed once when present, otherwise the name is unchanged. -/
def stripIndexSuffix (s : String) : String :=
  if endsWithSeq s.data ['_', '1'] then String.mk (s.data.take (s.data.length - 2)) else s

/-- Nested envelope of an error record: the errorResponse object, whose code may be absent. -/
structure ErrResponse where
  code : Option Int
deriving DecidableEq

/-- Error record of one index entry in the failure report: code may be absent, and an errorResponse envelope may be present. -/
structure ErrRecord where
  code : Option Int
  errorResponse : Option ErrResponse
deriving DecidableEq

/-- One index entry of the failure report: index name mapped to its error record. -/
structure IndexEntry where
  indexName : String
  err : ErrRecord
deriving DecidableEq

/-- One collection of the failure report with its index entries, in insertion order. -/
structure CollReport where
  collectionName : String
  indexes : List IndexEntry
deriving DecidableEq

/-- Failure report: collections in insertion order. -/
abbrev FailureReport := List CollReport

/-- JS logical-or specialised to optional integer codes: a present nonzero code is truthy and wins; an absent or zero code yields the second operand. -/
def jsOr (a b : Option Int) : Option Int :=
  match a with
  | some c => if c = 0 then b else some c
  | none => b

/-- Models the errCode expression of utils/index.js line 45: indexData.err.code, or else the code of the errorResponse envelope when that envelope is present. -/
def extractErrCode (e : ErrRecord) : Option Int :=
  jsOr e.code (e.errorResponse.bind ErrResponse.code)

/-- Models the test errCode === 11000 of utils/index.js line 46. -/
def entryQualifies (e : ErrRecord) : Bool := extractErrCode e == some 11000

/-- Fields accumulated for one collection by generateConfigs: qualifying index entries, in order, with the single-field suffix stripped. -/
def genFields (idxs : List IndexEntry) : List String :=
  idxs.filterMap fun ie =>
    if entryQualifies ie.err then some (stripIndexSuffix ie.indexName) else none

/-- One element of the scan plan. The fields value is Option so that a non-array JSON value (rejected by the Array.isArray check of the drivers) is representable as none. -/
structure Config where
  collection : String
  fields : Option (List String)
deriving DecidableEq

/-- Models the newConfigs array built by generateConfigs: collections whose qualifying field list is nonempty, in report order. -/
def newConfigsOf (data : FailureReport) : List Config :=
  data.filterMap fun cr =>
    let fields := genFields cr.indexes
    if fields.length > 0 then some { collection := cr.collectionName, fields := some fields }
    else none

/-- Modelled from the spec's words, for comparison with entryQualifies: the code is read from the primary location err.code first and, only if missing there, from the nested envelope location; an entry qualifies when that code equals 11000. -/
def specQualifies (e : ErrRecord) : Bool :=
  match e.code with
  | some c => c == 11000
  | none => (e.errorResponse.bind ErrResponse.code) == some 11000

/-- One duplicate group produced by the aggregation: the grouped value (none models a null or absent field value), the member count, and the member document ids. -/
structure DupGroup where
  key : Option Int
  count : Nat
  members : List Nat
deriving DecidableEq

/-- Per-field scan entry pushed onto collectionResults by the drivers. -/
structure FieldScanResult where
  field : String
  duplicates : List DupGroup
deriving DecidableEq

/-- Per-collection result object built by part_001: cardinality fields are none when absent from the written report. -/
structure ResultObj where
  collection : String
  results : List FieldScanResult
  destCardinality : Option Int
  sourceCardinality : Option Int
deriving DecidableEq

/-- One side of a meta.rels document, whose cardinality value may be absent. -/
structure MetaSide where
  cardinality : Option Int
deriving DecidableEq

/-- Meta document returned by the findOne lookup: dest and source may each be absent. -/
structure MetaDoc where
  dest : Option MetaSide
  source : Option MetaSide
deriving DecidableEq

/-- Database oracle seen by the drivers: the aggregate call for one collection and field, and the meta.rels findOne lookup; either may fail (a rejected promise). -/
structure DB where
  aggregate : String → String → Except Unit (List DupGroup)
  findMeta : String → Except Unit (Option MetaDoc)

/-- Models the inner field loop of findDuplicates (part_001 lines 67 to 90): one aggregate call per field, pushing an entry only when duplicates were returned; a rejected call propagates to the outer catch. -/
def scanFields (db : DB) (c : String) : List String → Except Unit (List FieldScanResult)
  | [] => .ok []
  | f :: rest =>
    match db.aggregate c f with
    | .error e => .error e
    | .ok dups =>
      match scanFields db c rest with
      | .error e => .error e
      | .ok tail => .ok (if dups.isEmpty then tail else { field := f, duplicates := dups } :: tail)

/-- Models part_001 lines 100 to 114: when the collection name contains rels, one meta.rels lookup is made; a found document contributes its cardinality values, a missing one leaves both absent; the lookup itself may reject. -/
def enrich (db : DB) (c : String) (rs : List FieldScanResult) : Except Unit ResultObj :=
  if jsIncludes c "rels" then
    match db.findMeta c with
    | .error e => .error e
    | .ok (some m) =>
      .ok { collection := c, results := rs,
            destCardinality := m.dest.bind MetaSide.cardinality,
            sourceCardinality := m.source.bind MetaSide.cardinality }
    | .ok none =>
      .ok { collection := c, results := rs, destCardinality := none, sourceCardinality := none }
  else
    .ok { collection := c, results := rs, destCardinality := none, sourceCardinality := none }

/-- Models one iteration of the config loop of findDuplicates in part_001: a falsy collection name or non-array fields value is logged and skipped (ok none); an empty scan result contributes nothing (ok none); otherwise the enriched result object is produced; any rejected database call propagates. -/
def processConfig (db : DB) (cfg : Config) : Except Unit (Option ResultObj) :=
  match cfg.fields with
  | none => .ok none
  | some fields =>
    if cfg.collection = "" then .ok none
    else
      match scanFields db cfg.collection fields with
      | .error e => .error e
      | .ok rs =>
        if rs.isEmpty then .ok none
        else
          match enrich db cfg.collection rs with
          | .error e => .error e
          | .ok r => .ok (some r)

/-- Models the config loop of findDuplicates together with its surrounding try/catch: finalResults accumulates pushed result objects; the first rejected database call is caught at the top level and the results accumulated so far are returned. -/
def findDuplicatesAux (db : DB) : List Config → List ResultObj → List ResultObj
  | [], acc => acc.reverse
  | cfg :: rest, acc =>
    match processConfig db cfg with
    | .error _ => acc.reverse
    | .ok none => findDuplicatesAux db rest acc
    | .ok (some r) => findDuplicatesAux db rest (r :: acc)

/-- Models findDuplicates of part_001 lines 46 to 126. -/
def findDuplicates (db : DB) (cfgs : List Config) : List ResultObj :=
  findDuplicatesAux db cfgs []

/-- One stored document: its identity and its top-level fields; a field absent from the list is absent from the document. -/
structure Doc where
  id : Nat
  attrs : List (String × Int)
deriving DecidableEq

/-- Value of one field of a document; none models an absent field, which MongoDB groups together with null. -/
def fieldVal (d : Doc) (f : String) : Option Int := d.attrs.lookup f

/-- Appends a grouping key on first appearance, keeping the list duplicate-free. -/
def insertKey (ks : List (Option Int)) (k : Option Int) : List (Option Int) :=
  if k ∈ ks then ks else ks ++ [k]

/-- Distinct grouping keys of the documents for one field, in first-appearance order. -/
def keysOf (docs : List Doc) (f : String) : List (Option Int) :=
  docs.foldl (fun ks d => insertKey ks (fieldVal d f)) []

/-- Semantics of the group stage of the pipeline built by the drivers: one group per distinct field value, with the running count and the pushed document ids. -/
def groupDocs (docs : List Doc) (f : String) : List DupGroup :=
  (keysOf docs f).map fun k =>
    let matching := docs.filter fun d => fieldVal d f == k
    { key := k, count := matching.length, members := matching.map Doc.id }

/-- Inserts a group into a count-descending list, after any group with a count at least as large. -/
def insertDesc (g : DupGroup) : List DupGroup → List DupGroup
  | [] => [g]
  | h :: t => if g.count ≤ h.count then h :: insertDesc g t else g :: h :: t

/-- Stable sort by count descending, modelling the sort stage of the pipeline. -/
def sortByCountDesc : List DupGroup → List DupGroup
  | [] => []
  | g :: rest => insertDesc g (sortByCountDesc rest)

/-- MongoDB semantics of the three-stage pipeline built at part_001 lines 70 to 80: group by the field value with count and pushed ids, keep groups whose count exceeds one, sort by count descending. -/
def aggregatePipeline (docs : List Doc) (f : String) : List DupGroup :=
  sortByCountDesc ((groupDocs docs f).filter fun g => decide (1 < g.count))

/-- One document of the meta.rels collection. -/
structure MetaRelsDoc where
  collectionType : String
  dest : Option MetaSide
  source : Option MetaSide
deriving DecidableEq

/-- Database oracle realised by an actual store: aggregate runs the pipeline over the named collection's documents, and findMeta returns the first meta.rels document whose collectionType equals the collection name. Neither call rejects. -/
def dbOf (store : String → List Doc) (metaRels : List MetaRelsDoc) : DB where
  aggregate := fun c f => .ok (aggregatePipeline (store c) f)
  findMeta := fun c =>
    .ok ((metaRels.find? fun m => m.collectionType == c).map fun m => ⟨m.dest, m.source⟩)

/-- Parse outcome of one file on disk: a failure report, a scan plan array, or text that is not valid JSON. -/
inductive FileData where
  | report (r : FailureReport)
  | plan (cfgs : List Config)
  | corrupt
deriving DecidableEq

/-- Filesystem: an association list from path to file content; a path that is absent is a missing file, and a later write shadows earlier content. -/
abbrev FS := List (String × FileData)

/-- Reads one path; none when the file is missing. -/
def fsRead (fs : FS) (p : String) : Option FileData := fs.lookup p

/-- Writes one path. -/
def fsWrite (fs : FS) (p : String) (d : FileData) : FS := (p, d) :: fs

/-- Input path of generateConfigs, utils/index.js line 23, in relative form. -/
def inputFile : String := "input/updateIndex.failure.json"

/-- Output path of generateConfigs, utils/index.js line 24, in relative form. -/
def generateConfigsOutputFile : String := "output/duplicates_json/duplicateKeys.json"

/-- Plan path read by the part_001 driver, line 137, in relative form. -/
def configFileV1 : String := "output/duplicates_json/duplicateKeys.json"

/-- Default plan path read by the part_000 driver, line 14. -/
def loadConfigsFileV0 : String := "output/duplicateKeys.json"

/-- Report directory used by the part_000 driver, line 109. -/
def outputDirV0 : String := "output/duplicaties_json"

/-- Report directory used by the part_001 driver, line 152, in relative form. -/
def outputDirV1 : String := "output/duplicates_json"

/-- Models generateConfigs of utils/index.js: on a readable, parseable failure report the plan is computed and written; any error (missing file, unparseable content) is caught inside the function, logged, and swallowed, so the filesystem is unchanged and the caller sees a normal return. -/
def generateConfigs (fs : FS) : FS :=
  match fsRead fs inputFile with
  | some (.report r) => fsWrite fs generateConfigsOutputFile (.plan (newConfigsOf r))
  | _ => fs

/-- Models loadConfigs of part_001 lines 16 to 23: a missing or unparseable plan file throws (error); a parseable plan array is returned. -/
def loadConfigs (fs : FS) (p : String) : Except Unit (List Config) :=
  match fsRead fs p with
  | some (.plan cfgs) => .ok cfgs
  | _ => .error ()

/-- Outcome of one driver run: aborted models process.exit(1); completed carries the scan results. -/
inductive RunOutcome where
  | aborted
  | completed (results : List ResultObj)
deriving DecidableEq

/-- Models the main body of part_001 lines 128 to 148: generateConfigs runs first, then the plan is loaded from configFileV1; a load failure exits the process, otherwise findDuplicates runs on the loaded plan. -/
def mainV1 (fs : FS) (db : DB) : RunOutcome :=
  match loadConfigs (generateConfigs fs) configFileV1 with
  | .error _ => .aborted
  | .ok cfgs => .completed (findDuplicates db cfgs)

/-- Fixture: a two-member duplicate group. -/
def g2 : DupGroup := ⟨some 7, 2, [1, 2]⟩

/-- Fixture: a database whose aggregate call rejects for field f1 of collection a and returns one duplicate group everywhere else. -/
def errDB : DB where
  aggregate := fun c f => if c == "a" && f == "f1" then .error () else .ok [g2]
  findMeta := fun _ => .ok none

/-- Fixture: scan target whose first field's query rejects under errDB. -/
def cfgA : Config := ⟨"a", some ["f1", "f2"]⟩

/-- Fixture: scan target that succeeds under errDB. -/
def cfgB : Config := ⟨"b", some ["g"]⟩

/-- Fixture: a database whose aggregate calls all succeed with one duplicate group but whose meta.rels lookup rejects. -/
def metaErrDB : DB where
  aggregate := fun _ _ => .ok [g2]
  findMeta := fun _ => .error ()

/-- Fixture: a relationship collection target. -/
def relsCfg : Config := ⟨"sharan.rels.clientContact", some ["client"]⟩

/-- Fixture: an ordinary collection target. -/
def plainCfg : Config := ⟨"users", some ["email"]⟩

/-- Fixture: a database whose calls all succeed. -/
def okDB : DB where
  aggregate := fun _ _ => .ok [g2]
  findMeta := fun _ => .ok none

/-- Fixture: a filesystem holding a stale plan at the part_001 plan path and no failure report. -/
def fsStale : FS := [(configFileV1, .plan [plainCfg])]

/-- Fixture: three documents, two sharing the email value 5. -/
def demoDocs : List Doc := [⟨1, [("email", 5)]⟩, ⟨2, [("email", 5)]⟩, ⟨3, [("email", 6)]⟩]

/-- Fixture: a store serving demoDocs for the users collection. -/
def demoStore : String → List Doc := fun c => if c == "users" then demoDocs else []

/-- Fixture: five documents, a two-member and a three-member duplicate group on ssn. -/
def ssnDocs : List Doc :=
  [⟨1, [("ssn", 1)]⟩, ⟨2, [("ssn", 1)]⟩, ⟨3, [("ssn", 2)]⟩, ⟨4, [("ssn", 2)]⟩, ⟨5, [("ssn", 2)]⟩]

/-- Fixture: a store serving ssnDocs for every collection. -/
def ssnStore : String → List Doc := fun _ => ssnDocs

/-- A list with a false isEmpty flag is not nil. -/
lemma ne_nil_of_isEmpty_false {α : Type} {l : List α} (h : l.isEmpty = false) : l ≠ [] := by
  cases l <;> simp_all [List.isEmpty]

/-- Membership in insertDesc is membership in the original list or being the inserted group. -/
lemma mem_insertDesc {a g : DupGroup} : ∀ {l : List DupGroup}, a ∈ insertDesc g l ↔ a = g ∨ a ∈ l := by
  intro l
  induction l with
  | nil => simp [insertDesc]
  | cons h t ih =>
    unfold insertDesc
    by_cases hc : g.count ≤ h.count
    · rw [if_pos hc]
      simp only [List.mem_cons, ih]
      tauto
    · rw [if_neg hc]
      simp only [List.mem_cons]

/-- Sorting by count preserves membership. -/
lemma mem_sortByCountDesc {a : DupGroup} : ∀ {l : List DupGroup}, a ∈ sortByCountDesc l ↔ a ∈ l := by
  intro l
  induction l with
  | nil => simp [sortByCountDesc]
  | cons g rest ih =>
    simp only [sortByCountDesc, mem_insertDesc, ih, List.mem_cons]

/-- Inserting into a count-descending list keeps it count-descending. -/
lemma pairwise_insertDesc {g : DupGroup} :
    ∀ {l : List DupGroup}, l.Pairwise (fun x y => y.count ≤ x.count) →
      (insertDesc g l).Pairwise (fun x y => y.count ≤ x.count) := by
  intro l
  induction l with
  | nil => intro _; simp [insertDesc]
  | cons h t ih =>
    intro hp
    rw [List.pairwise_cons] at hp
    obtain ⟨hh, ht⟩ := hp
    unfold insertDesc
    by_cases hc : g.count ≤ h.count
    · rw [if_pos hc, List.pairwise_cons]
      refine ⟨?_, ih ht⟩
      intro x hx
      rcases mem_insertDesc.mp hx with rfl | hx
      · exact hc
      · exact hh x hx
    · rw [if_neg hc, List.pairwise_cons]
      refine ⟨?_, List.Pairwise.cons hh ht⟩
      intro x hx
      rcases List.mem_cons.mp hx with rfl | hx
      · exact Nat.le_of_lt (Nat.not_le.mp hc)
      · exact Nat.le_trans (hh x hx) (Nat.le_of_lt (Nat.not_le.mp hc))

/-- The sort stage always yields a count-descending list. -/
lemma pairwise_sortByCountDesc : ∀ l : List DupGroup,
    (sortByCountDesc l).Pairwise fun x y => y.count ≤ x.count := by
  intro l
  induction l with
  | nil => simp [sortByCountDesc]
  | cons g rest ih =>
    simp only [sortByCountDesc]
    exact pairwise_insertDesc ih

/-- Every group built by the group stage counts exactly its members. -/
lemma mem_groupDocs {g : DupGroup} {docs : List Doc} {f : String}
    (h : g ∈ groupDocs docs f) : g.count = g.members.length := by
  unfold groupDocs at h
  rcases List.mem_map.mp h with ⟨k, _, rfl⟩
  simp

/-- Every group surviving the whole pipeline counts its members and has more than one of them. -/
lemma mem_aggregatePipeline {g : DupGroup} {docs : List Doc} {f : String}
    (h : g ∈ aggregatePipeline docs f) : g.count = g.members.length ∧ 1 < g.count := by
  unfold aggregatePipeline at h
  rw [mem_sortByCountDesc] at h
  rcases List.mem_filter.mp h with ⟨hmem, hcount⟩
  exact ⟨mem_groupDocs hmem, of_decide_eq_true hcount⟩

/-- Every entry of a successful field scan records the nonempty duplicate list returned by the aggregate call for one of the requested fields. -/
lemma scanFields_ok_mem {db : DB} {c : String} {fr : FieldScanResult} :
    ∀ {fields : List String} {rs : List FieldScanResult},
      scanFields db c fields = .ok rs → fr ∈ rs →
      ∃ f, f ∈ fields ∧ db.aggregate c f = .ok fr.duplicates ∧ fr.duplicates ≠ [] := by
  intro fields
  induction fields with
  | nil =>
    intro rs h hm
    simp only [scanFields] at h
    injection h with h
    subst h
    cases hm
  | cons f rest ih =>
    intro rs h hm
    simp only [scanFields] at h
    cases hag : db.aggregate c f with
    | error e => rw [hag] at h; cases h
    | ok dups =>
      rw [hag] at h
      cases hsc : scanFields db c rest with
      | error e => rw [hsc] at h; cases h
      | ok tail =>
        rw [hsc] at h
        injection h with h
        by_cases hd : dups.isEmpty
        · rw [if_pos hd] at h
          subst h
          obtain ⟨f1, hf1, hr1⟩ := ih hsc hm
          exact ⟨f1, List.mem_cons_of_mem _ hf1, hr1⟩
        · rw [if_neg hd] at h
          subst h
          cases hm with
          | head =>
            refine ⟨f, List.mem_cons_self _ _, hag, ?_⟩
            exact ne_nil_of_isEmpty_false (Bool.of_not_eq_true hd)
          | tail _ hm1 =>
            obtain ⟨f1, hf1, hr1⟩ := ih hsc hm1
            exact ⟨f1, List.mem_cons_of_mem _ hf1, hr1⟩

/-- A successful enrichment keeps the scan results and the collection name unchanged. -/
lemma enrich_ok {db : DB} {c : String} {rs : List FieldScanResult} {r : ResultObj}
    (h : enrich db c rs = .ok r) : r.results = rs ∧ r.collection = c := by
  unfold enrich at h
  split at h
  · split at h
    · cases h
    · injection h with h
      subst h
      exact ⟨rfl, rfl⟩
    · injection h with h
      subst h
      exact ⟨rfl, rfl⟩
  · injection h with h
    subst h
    exact ⟨rfl, rfl⟩

/-- A config that produces a result object passed validation, scanned to a nonempty result list, and carries that list under its own collection name. -/
lemma processConfig_ok_some {db : DB} {cfg : Config} {r : ResultObj}
    (h : processConfig db cfg = .ok (some r)) :
    ∃ fields rs, cfg.fields = some fields ∧ cfg.collection ≠ "" ∧
      scanFields db cfg.collection fields = .ok rs ∧ rs ≠ [] ∧
      r.results = rs ∧ r.collection = cfg.collection := by
  unfold processConfig at h
  split at h
  · injection h with h; cases h
  next fields hf =>
    split at h
    · injection h with h; cases h
    next hne =>
      split at h
      · cases h
      next rs hsc =>
        split at h
        · injection h with h; cases h
        next hre =>
          split at h
          · cases h
          next r1 hen =>
            injection h with h
            injection h with h
            subst h
            obtain ⟨h1, h2⟩ := enrich_ok hen
            exact ⟨fields, rs, hf, hne, hsc, ne_nil_of_isEmpty_false (Bool.of_not_eq_true hre),
              h1, h2⟩

/-- Every result object of the scan loop either was already accumulated or is produced by one of the configs. -/
lemma mem_findDuplicatesAux {db : DB} :
    ∀ (cfgs : List Config) (acc : List ResultObj) (r : ResultObj),
      r ∈ findDuplicatesAux db cfgs acc →
      r ∈ acc ∨ ∃ cfg, cfg ∈ cfgs ∧ processConfig db cfg = .ok (some r) := by
  intro cfgs
  induction cfgs with
  | nil =>
    intro acc r h
    simp only [findDuplicatesAux] at h
    exact .inl (List.mem_reverse.mp h)
  | cons cfg rest ih =>
    intro acc r h
    simp only [findDuplicatesAux] at h
    cases hp : processConfig db cfg with
    | error e =>
      rw [hp] at h
      exact .inl (List.mem_reverse.mp h)
    | ok o =>
      cases o with
      | none =>
        rw [hp] at h
        rcases ih acc r h with h1 | ⟨cfg1, hc1, hp1⟩
        · exact .inl h1
        · exact .inr ⟨cfg1, List.mem_cons_of_mem _ hc1, hp1⟩
      | some r1 =>
        rw [hp] at h
        rcases ih (r1 :: acc) r h with h1 | ⟨cfg1, hc1, hp1⟩
        · cases h1 with
          | head => exact .inr ⟨cfg, List.mem_cons_self _ _, hp⟩
          | tail _ hm => exact .inl hm
        · exact .inr ⟨cfg1, List.mem_cons_of_mem _ hc1, hp1⟩

/-- A config whose processing rejects ends the loop: everything after it, itself included, contributes nothing, and the results accumulated before it are returned. -/
lemma findDuplicatesAux_error {db : DB} {cfg : Config}
    (hc : processConfig db cfg = .error ()) :
    ∀ (pre : List Config) (acc : List ResultObj) (post : List Config),
      findDuplicatesAux db (pre ++ cfg :: post) acc = findDuplicatesAux db pre acc := by
  intro pre
  induction pre with
  | nil =>
    intro acc post
    simp only [List.nil_append, findDuplicatesAux, hc]
  | cons p pre ih =>
    intro acc post
    simp only [List.cons_append, findDuplicatesAux]
    cases hp : processConfig db p with
    | error e => rfl
    | ok o => cases o with
      | none => exact ih acc post
      | some r1 => exact ih (r1 :: acc) post

/-- A config that validation skips leaves the run's output exactly as if it were absent from the plan. -/
lemma findDuplicatesAux_skip {db : DB} {cfg : Config}
    (hc : processConfig db cfg = .ok none) :
    ∀ (pre : List Config) (acc : List ResultObj) (post : List Config),
      findDuplicatesAux db (pre ++ cfg :: post) acc = findDuplicatesAux db (pre ++ post) acc := by
  intro pre
  induction pre with
  | nil =>
    intro acc post
    simp only [List.nil_append, findDuplicatesAux, hc]
  | cons p pre ih =>
    intro acc post
    simp only [List.cons_append, findDuplicatesAux]
    cases hp : processConfig db p with
    | error e => rfl
    | ok o => cases o with
      | none => exact ih acc post
      | some r1 => exact ih (r1 :: acc) post

/-- C1 counterexample: under errDB the aggregate call for field f2 of collection a and the one for collection b both succeed with a duplicate group, yet because the call for field f1 of collection a rejects, findDuplicates returns nothing at all: the failure aborts the remaining field and the remaining collection instead of being contained. -/
theorem scanError_not_isolated_cex :
    errDB.aggregate "a" "f2" = .ok [g2] ∧ errDB.aggregate "b" "g" = .ok [g2] ∧
      findDuplicates errDB [cfgA, cfgB] = [] := by
  refine ⟨rfl, rfl, by decide⟩

/-- C1 amended: a ScanError inside one config's processing is caught only by the try/catch around the whole loop, so the scan stops there: the output equals the output for the preceding configs alone, and the failing config and every later one contribute nothing. -/
theorem scanError_aborts_run (db : DB) (pre : List Config) (cfg : Config) (post : List Config)
    (h : processConfig db cfg = .error ()) :
    findDuplicates db (pre ++ cfg :: post) = findDuplicates db pre := by
  unfold findDuplicates
  exact findDuplicatesAux_error h pre [] post

/-- C1 witness: the amended theorem applied to errDB with one good config before and after the failing one. -/
theorem scanError_aborts_run_witness :
    findDuplicates errDB ([cfgB] ++ cfgA :: [cfgB]) = findDuplicates errDB [cfgB] :=
  scanError_aborts_run errDB [cfgB] cfgA [cfgB] rfl

/-- C5 counterexample: under metaErrDB every grouping scan succeeds with a duplicate group, yet the rejected meta.rels lookup for the rels collection empties the whole output: the current collection's result is dropped and the following non-rels collection is never scanned, so the enricher does fail the run. -/
theorem enrichError_not_isolated_cex :
    metaErrDB.aggregate "sharan.rels.clientContact" "client" = .ok [g2] ∧
      metaErrDB.aggregate "users" "email" = .ok [g2] ∧
      findDuplicates metaErrDB [relsCfg, plainCfg] = [] := by
  refine ⟨rfl, rfl, by decide⟩

/-- C5 amended: a rejected meta.rels lookup propagates to the loop's only catch exactly like a scan failure: the enriched collection's result is dropped and every remaining collection contributes nothing, the output being that of the preceding configs alone. -/
theorem enrichError_aborts_run (db : DB) (pre post : List Config) (c : String)
    (fields : List String) (rs : List FieldScanResult) (hne : c ≠ "")
    (hrels : jsIncludes c "rels" = true) (hscan : scanFields db c fields = .ok rs)
    (hrs : rs.isEmpty = false) (hmeta : db.findMeta c = .error ()) :
    findDuplicates db (pre ++ (⟨c, some fields⟩ : Config) :: post) = findDuplicates db pre := by
  have hpc : processConfig db (⟨c, some fields⟩ : Config) = .error () := by
    unfold processConfig
    simp only
    rw [if_neg hne, hscan]
    simp only [hrs, Bool.false_eq_true, if_false]
    unfold enrich
    rw [if_pos hrels, hmeta]
  unfold findDuplicates
  exact findDuplicatesAux_error hpc pre [] post

/-- C5 witness: the amended theorem applied to metaErrDB with a rels collection whose scan found duplicates and a good config on either side. -/
theorem enrichError_aborts_run_witness :
    findDuplicates metaErrDB ([plainCfg] ++ (⟨"sharan.rels.clientContact", some ["client"]⟩ : Config) :: [plainCfg]) =
      findDuplicates metaErrDB [plainCfg] :=
  enrichError_aborts_run metaErrDB [plainCfg] [plainCfg] "sharan.rels.clientContact" ["client"]
    [⟨"client", [g2]⟩] (by decide) (by decide) rfl rfl rfl

/-- C9: a plan element with an empty collection name or a non-array fields value is skipped by the validation check at the top of the loop, and the run's output is exactly the output for the plan without that element, so the remaining targets are all still processed. -/
theorem malformed_config_skipped (db : DB) (pre post : List Config) (cfg : Config)
    (h : cfg.collection = "" ∨ cfg.fields = none) :
    findDuplicates db (pre ++ cfg :: post) = findDuplicates db (pre ++ post) := by
  have hpc : processConfig db cfg = .ok none := by
    cases hf : cfg.fields with
    | none => simp [processConfig, hf]
    | some fields =>
      rcases h with h | h
      · simp [processConfig, hf, h]
      · rw [hf] at h; cases h
  unfold findDuplicates
  exact findDuplicatesAux_skip hpc pre [] post

/-- C9 witness: the theorem applied to a config with an empty collection name between two good configs under okDB. -/
theorem malformed_config_skipped_witness :
    findDuplicates okDB ([plainCfg] ++ (⟨"", some ["x"]⟩ : Config) :: [cfgB]) =
      findDuplicates okDB ([plainCfg] ++ [cfgB]) :=
  malformed_config_skipped okDB [plainCfg] [cfgB] ⟨"", some ["x"]⟩ (Or.inl rfl)

/-- Every duplicates list appearing in the output of findDuplicates over a real store is the output of the aggregation pipeline for the owning collection's documents and some scanned field. -/
lemma duplicates_from_pipeline {store : String → List Doc} {metaRels : List MetaRelsDoc}
    {cfgs : List Config} {r : ResultObj} {fr : FieldScanResult}
    (hr : r ∈ findDuplicates (dbOf store metaRels) cfgs) (hfr : fr ∈ r.results) :
    ∃ c f, fr.duplicates = aggregatePipeline (store c) f := by
  rcases mem_findDuplicatesAux cfgs [] r hr with h | ⟨cfg, _, hpc⟩
  · cases h
  · obtain ⟨fields, rs, _, _, hscan, _, hres, _⟩ := processConfig_ok_some hpc
    rw [hres] at hfr
    obtain ⟨f, _, hagg, _⟩ := scanFields_ok_mem hscan hfr
    simp only [dbOf] at hagg
    injection hagg with hagg
    exact ⟨cfg.collection, f, hagg.symm⟩

/-- C4: when the database is a real store executing the pipeline the scripts build, every duplicate group of every returned result counts exactly its member list and has strictly more than one member. -/
theorem dupGroup_count_invariant (store : String → List Doc) (metaRels : List MetaRelsDoc)
    (cfgs : List Config) (r : ResultObj) (fr : FieldScanResult) (g : DupGroup)
    (hr : r ∈ findDuplicates (dbOf store metaRels) cfgs)
    (hfr : fr ∈ r.results) (hg : g ∈ fr.duplicates) :
    g.count = g.members.length ∧ 1 < g.count := by
  obtain ⟨c, f, hdup⟩ := duplicates_from_pipeline hr hfr
  rw [hdup] at hg
  exact mem_aggregatePipeline hg

/-- C4 witness: the theorem applied to the demo store, whose users collection holds two documents sharing an email value. -/
theorem dupGroup_count_invariant_witness :
    (⟨some 5, 2, [1, 2]⟩ : DupGroup).count = (⟨some 5, 2, [1, 2]⟩ : DupGroup).members.length ∧
      1 < (⟨some 5, 2, [1, 2]⟩ : DupGroup).count :=
  dupGroup_count_invariant demoStore [] [plainCfg]
    ⟨"users", [⟨"email", [⟨some 5, 2, [1, 2]⟩]⟩], none, none⟩
    ⟨"email", [⟨some 5, 2, [1, 2]⟩]⟩ ⟨some 5, 2, [1, 2]⟩ (by decide) (by decide) (by decide)

/-- C6: when the database is a real store executing the pipeline the scripts build, every duplicates list in the output is ordered by count descending. -/
theorem duplicates_sorted_desc (store : String → List Doc) (metaRels : List MetaRelsDoc)
    (cfgs : List Config) (r : ResultObj) (fr : FieldScanResult)
    (hr : r ∈ findDuplicates (dbOf store metaRels) cfgs) (hfr : fr ∈ r.results) :
    fr.duplicates.Pairwise fun a b => b.count ≤ a.count := by
  obtain ⟨c, f, hdup⟩ := duplicates_from_pipeline hr hfr
  rw [hdup]
  unfold aggregatePipeline
  exact pairwise_sortByCountDesc _

/-- C6 witness: the theorem applied to the ssn store, where the scan returns a three-member group ahead of a two-member group. -/
theorem duplicates_sorted_desc_witness :
    List.Pairwise (fun a b : DupGroup => b.count ≤ a.count)
      [⟨some 2, 3, [3, 4, 5]⟩, ⟨some 1, 2, [1, 2]⟩] :=
  duplicates_sorted_desc ssnStore [] [⟨"people", some ["ssn"]⟩]
    ⟨"people", [⟨"ssn", [⟨some 2, 3, [3, 4, 5]⟩, ⟨some 1, 2, [1, 2]⟩]⟩], none, none⟩
    ⟨"ssn", [⟨some 2, 3, [3, 4, 5]⟩, ⟨some 1, 2, [1, 2]⟩]⟩ (by decide) (by decide)

/-- C7: every result object findDuplicates returns has a nonempty results list, and every field scan entry in it has a nonempty duplicates list; clean fields and clean collections are omitted entirely, never emitted as empty. -/
theorem empty_results_omitted (db : DB) (cfgs : List Config) (r : ResultObj)
    (hr : r ∈ findDuplicates db cfgs) :
    r.results ≠ [] ∧ ∀ fr ∈ r.results, fr.duplicates ≠ [] := by
  rcases mem_findDuplicatesAux cfgs [] r hr with h | ⟨cfg, _, hpc⟩
  · cases h
  · obtain ⟨fields, rs, _, _, hscan, hrs, hres, _⟩ := processConfig_ok_some hpc
    constructor
    · rw [hres]; exact hrs
    · intro fr hfr
      rw [hres] at hfr
      obtain ⟨f, _, _, hnil⟩ := scanFields_ok_mem hscan hfr
      exact hnil

/-- C7 witness: the theorem applied to okDB and a single target that finds one duplicate group. -/
theorem empty_results_omitted_witness :
    ((⟨"users", [⟨"email", [g2]⟩], none, none⟩ : ResultObj).results ≠ []) ∧
      ∀ fr ∈ (⟨"users", [⟨"email", [g2]⟩], none, none⟩ : ResultObj).results,
        fr.duplicates ≠ [] :=
  empty_results_omitted okDB [plainCfg] ⟨"users", [⟨"email", [g2]⟩], none, none⟩ (by decide)

/-- C2 counterexample: with the failure report missing but a stale plan on disk, the part_001 run does not abort: generateConfigs swallows its error and the driver completes the scan using the stale plan. -/
theorem generatorFailure_no_abort_cex :
    fsRead fsStale inputFile = none ∧
      mainV1 fsStale okDB = .completed [⟨"users", [⟨"email", [g2]⟩], none, none⟩] ∧
      mainV1 fsStale okDB ≠ .aborted := by
  refine ⟨by decide, by decide, by decide⟩

/-- C2 amended: when the failure report is missing or unparseable, generateConfigs catches the error, logs it, and writes nothing, and the run continues: it aborts only if the plan file then fails to load, and otherwise completes scanning whatever plan file is already present. -/
theorem generatorFailure_run_continues (fs : FS) (db : DB)
    (h : ∀ rep, fsRead fs inputFile ≠ some (.report rep)) :
    (loadConfigs fs configFileV1 = .error () → mainV1 fs db = .aborted) ∧
      ∀ cfgs, loadConfigs fs configFileV1 = .ok cfgs →
        mainV1 fs db = .completed (findDuplicates db cfgs) := by
  have hgen : generateConfigs fs = fs := by
    unfold generateConfigs
    cases hr : fsRead fs inputFile with
    | none => rfl
    | some fd =>
      cases fd with
      | report rep => exact absurd hr (h rep)
      | plan cfgs => rfl
      | corrupt => rfl
  constructor
  · intro hl
    unfold mainV1
    rw [hgen, hl]
  · intro cfgs hl
    unfold mainV1
    rw [hgen, hl]

/-- C2 witness: the amended theorem applied to a filesystem with no failure report and a stale one-target plan. -/
theorem generatorFailure_run_continues_witness :
    mainV1 fsStale okDB = .completed (findDuplicates okDB [plainCfg]) := by
  have h : ∀ rep, fsRead fsStale inputFile ≠ some (.report rep) := by
    intro rep hc
    rw [show fsRead fsStale inputFile = none from by decide] at hc
    exact Option.noConfusion hc
  exact (generatorFailure_run_continues fsStale okDB h).2 [plainCfg] rfl

/-- C3 counterexample: an index entry whose primary code is present but zero, with 11000 in the envelope, does contribute its field: the JS logical-or falls back on any falsy primary code, not only on a missing one, so the claim's primary-first rule is violated. -/
theorem errCode_fallback_cex :
    entryQualifies ⟨some 0, some ⟨some 11000⟩⟩ = true ∧
      specQualifies ⟨some 0, some ⟨some 11000⟩⟩ = false ∧
      genFields [⟨"flag_1", ⟨some 0, some ⟨some 11000⟩⟩⟩] = ["flag"] := by
  refine ⟨by decide, by decide, by decide⟩

/-- C3 amended: the fields of the plan are exactly the suffix-stripped names of the qualifying index entries, and an entry qualifies when its primary code is 11000, or when its primary code is missing or zero and the envelope code is 11000. -/
theorem errCode_fallback_characterization :
    (∀ idxs : List IndexEntry,
        genFields idxs = ((idxs.filter fun ie => entryQualifies ie.err).map
          fun ie => stripIndexSuffix ie.indexName)) ∧
      ∀ e : ErrRecord, entryQualifies e = true ↔
        (e.code = some 11000 ∨
          ((e.code = none ∨ e.code = some 0) ∧
            e.errorResponse.bind ErrResponse.code = some 11000)) := by
  constructor
  · intro idxs
    induction idxs with
    | nil => rfl
    | cons ie rest ih =>
      by_cases hq : entryQualifies ie.err
      · simp [genFields, List.filterMap_cons, List.filter_cons, hq] at ih ⊢
        exact ih
      · simp [genFields, List.filterMap_cons, List.filter_cons, hq] at ih ⊢
        exact ih
  · intro e
    unfold entryQualifies extractErrCode jsOr
    cases hc : e.code with
    | none => simp
    | some c =>
      by_cases h0 : c = 0
      · subst h0
        simp
      · simp [h0]

/-- C8: an index name formed by appending the single-field suffix is reduced to the bare name, the suffix removed exactly once from the end, and an index name not ending in the suffix passes through unchanged. -/
theorem stripIndexSuffix_correct (t s : String)
    (h : endsWithSeq s.data ['_', '1'] = false) :
    stripIndexSuffix (t ++ "_1") = t ∧ stripIndexSuffix s = s := by
  constructor
  · have hdata : (t ++ "_1").data = t.data ++ ['_', '1'] := rfl
    unfold stripIndexSuffix
    rw [hdata]
    rw [if_pos ?hend]
    case hend =>
      unfold endsWithSeq
      rw [List.reverse_append]
      simp [startsWithSeq]
    have hlen : (t.data ++ ['_', '1']).length - 2 = t.data.length := by simp
    rw [hlen]
    have htake : (t.data ++ ['_', '1']).take t.data.length = t.data := List.take_left _ _
    rw [htake]
  · unfold stripIndexSuffix
    rw [h]
    simp

/-- C8 witness: the theorem applied to the index names of the spec's scenario A and to a suffix-free name. -/
theorem stripIndexSuffix_correct_witness :
    stripIndexSuffix ("email" ++ "_1") = "email" ∧ stripIndexSuffix "users" = "users" :=
  stripIndexSuffix_correct "email" "users" (by decide)

/-- C10: the generator writes the plan to a path the part_000 driver never reads, since writing it does not change what that driver's default load path holds, and the two drivers use differently spelled report directories. -/
theorem artifact_path_mismatch :
    (∀ fs : FS, fsRead (generateConfigs fs) loadConfigsFileV0 = fsRead fs loadConfigsFileV0) ∧
      generateConfigsOutputFile ≠ loadConfigsFileV0 ∧ outputDirV0 ≠ outputDirV1 := by
  refine ⟨?_, by decide, by decide⟩
  intro fs
  unfold generateConfigs
  cases hr : fsRead fs inputFile with
  | none => rfl
  | some fd =>
    cases fd with
    | report rep =>
      show fsRead (fsWrite fs generateConfigsOutputFile _) loadConfigsFileV0 = _
      unfold fsRead fsWrite
      simp only [List.lookup]
      rw [show (loadConfigsFileV0 == generateConfigsOutputFile) = false from by decide]
    | plan cfgs => rfl
    | corrupt => rfl

end MongoDup
